import Mathlib

/-!
Verification of the AutoWorld Empire world-simulation core.

This file gives a shallow embedding of the simulation core of the
repository (tool archive, memory subsystem, construction resolver,
world diff engine, influence tool, combat resolver, and the turn
orchestrator) and proves the behavioural properties stated in the
design document against that embedding.

Modelling conventions:
- JavaScript numbers are modelled as rationals.
- JavaScript records (objects used as string-keyed maps) are modelled
  as association lists with insert-or-overwrite update.
- Nondeterministic inputs (random draws, generated ids, external
  oracle replies) are passed in as explicit parameters.
- A value that may be null or undefined is modelled with Option.
-/

namespace AutoWorld

/-- Resource pool of a faction: gold, grain, iron. -/
structure Resources where
  gold : ℚ
  grain : ℚ
  iron : ℚ
deriving DecidableEq, Repr

/-- Military stats of a faction. -/
structure Military where
  troops : ℚ
  quality : ℚ
deriving DecidableEq, Repr

/-- A faction in the world state. -/
structure Faction where
  id : String
  name : String
  archetype : String
  resources : Resources
  military : Military
deriving DecidableEq, Repr

/-- A building inside a location. -/
structure Building where
  id : String
  btype : String
  level : ℚ
  owner_npc_id : String
  status : String
deriving DecidableEq, Repr

/-- A settlement on the map. -/
structure Location where
  id : String
  name : String
  ltype : String
  x : ℚ
  y : ℚ
  faction_id : Option String
  population : ℚ
  buildings : List Building
  defense : ℚ
  prosperity : ℚ
  unrest : ℚ
deriving DecidableEq, Repr

/-- A trade route between two locations carrying one commodity. -/
structure TradeRoute where
  id : String
  from_location_id : String
  to_location_id : String
  commodity : String
  volume : ℚ
  risk : ℚ
  status : String
deriving DecidableEq, Repr

/-- A map tile. -/
structure Tile where
  x : ℚ
  y : ℚ
  terrain : String
  owner_faction_id : Option String
  location_id : Option String
deriving DecidableEq, Repr

/-- The world map. -/
structure GameMap where
  width : ℚ
  height : ℚ
  tiles : List Tile
  locations : List Location
  routes : List TradeRoute
deriving DecidableEq, Repr

/-- One memory item held by an NPC. -/
structure MemoryItem where
  id : String
  text : String
  tags : List String
  strength : ℚ
  created_epoch : ℚ
  last_reinforced_epoch : ℚ
deriving DecidableEq, Repr

/-- Personal resource pool of an agent. -/
structure NPCResources where
  gold : ℚ
  influence : ℚ
deriving DecidableEq, Repr

/-- An agent in the world. -/
structure NPC where
  id : String
  name : String
  role : String
  faction_id : String
  resources : NPCResources
  memory : List MemoryItem
  location_id : String
  status : String
deriving DecidableEq, Repr

/-- A commodity tracked by the economy. -/
structure Commodity where
  id : String
  base_price : ℚ
  current_price : ℚ
  supply : ℚ
  demand : ℚ
  volatility : ℚ
deriving DecidableEq, Repr

/-- The economy snapshot. -/
structure Economy where
  commodities : List Commodity
  market_events : List String
deriving DecidableEq, Repr

/-- Simulation time: day and hour are presentation fields, epoch is the
turn counter. -/
structure TimeState where
  day : ℚ
  hour : ℚ
  epoch : ℚ
deriving DecidableEq, Repr

/-- One narrative entry of the append-only event log. -/
structure EventLogEntry where
  id : String
  epoch : ℚ
  etype : String
  title : String
  summary : String
  impact_tool_id : Option String
  decision_trace_id : Option String
deriving DecidableEq, Repr

/-- An audit record of one agent decision. -/
structure DecisionTrace where
  decision_trace_id : String
  epoch : ℚ
  actor : String
deriving DecidableEq, Repr

/-- A quest record. -/
structure Quest where
  id : String
  title : String
  status : String
deriving DecidableEq, Repr

/-- The full world state, the single source of truth. -/
structure WorldState where
  time : TimeState
  map : GameMap
  factions : List Faction
  npcs : List NPC
  economy : Economy
  quests : List Quest
  event_log : List EventLogEntry
  decision_traces : List DecisionTrace
deriving DecidableEq, Repr

/-- A coarse human-readable diff between two snapshots. -/
structure WorldDiffData where
  added : List String
  updated : List String
  removed : List String
deriving DecidableEq, Repr

/-- One committed world diff. -/
structure WorldDiff where
  epoch : ℚ
  title : String
  diff : WorldDiffData
deriving DecidableEq, Repr

/-- The persisted bundle: the world state plus the append-only list of
world diffs. -/
structure WorldBundle where
  world_state : WorldState
  world_diffs : List WorldDiff
deriving DecidableEq, Repr

/-- A partial world state, the `updates` payload returned by the tools.
A field that is present replaces the corresponding field of the state
when the update is merged with an object spread. -/
structure WorldUpdates where
  map : Option GameMap := none
  factions : Option (List Faction) := none
  npcs : Option (List NPC) := none
  economy : Option Economy := none
deriving DecidableEq, Repr

/-- The empty update object, carrying zero state changes. -/
def emptyUpdates : WorldUpdates := {}

/-- Merging an updates object into a state with an object spread. -/
def applyUpdates (s : WorldState) (u : WorldUpdates) : WorldState :=
  { s with
    map := u.map.getD s.map
    factions := u.factions.getD s.factions
    npcs := u.npcs.getD s.npcs
    economy := u.economy.getD s.economy }

/-- Model of the clamp helper: Math.max(min, Math.min(max, value)). -/
def clamp (value lo hi : ℚ) : ℚ := max lo (min hi value)

/-- Model of the JavaScript toLowerCase: lower every character. -/
def strToLower (s : String) : String := String.mk (s.data.map Char.toLower)

/-- Model of the JavaScript pattern x || 0 on an optional number. -/
def orZero (x : Option ℚ) : ℚ := x.getD 0

/-! ## Tool archive (toolDb) -/

/-- One declared parameter of a shared tool. -/
structure ToolParameter where
  name : String
  ptype : String
  description : String
deriving DecidableEq, Repr

/-- A shared agent tool. The parameters field is None when the raw
value is not a list. -/
structure AgentTool where
  id : String
  name : String
  description : String
  action_guidance : String
  parameters : Option (List ToolParameter)
  cooldown_days : ℚ
  lore : Option String
  created_epoch : Option ℚ
deriving DecidableEq, Repr

/-- Read a key from a string-keyed record. -/
def recordGet? (m : List (String × ℚ)) (k : String) : Option ℚ :=
  (m.find? (fun p => p.1 == k)).map (fun p => p.2)

/-- Insert-or-overwrite a key in a string-keyed record, the result of
spreading the record with one extra computed key. -/
def recordSet (m : List (String × ℚ)) (k : String) (v : ℚ) : List (String × ℚ) :=
  if m.any (fun p => p.1 == k) then
    m.map (fun p => if p.1 == k then (k, v) else p)
  else
    m ++ [(k, v)]

/-- The tool archive: tools, per-tool last-used epochs, and the guard
epoch of the most recent tool evolution. -/
structure ToolDB where
  tools : List AgentTool
  usage : List (String × ℚ)
  last_evolved_epoch : Option ℚ
deriving DecidableEq, Repr

/-- Model of validateTool from toolDb.ts: name, description and
action_guidance must be present and nonempty, and parameters must be a
list. -/
def validateTool (tool : AgentTool) : Bool :=
  if tool.name == "" || tool.description == "" || tool.action_guidance == "" then false
  else if tool.parameters.isNone then false
  else true

/-- Model of normalizeTool from toolDb.ts: cooldown_days defaults to 1
when falsy and is clamped into the interval from 1 to 10. -/
def normalizeTool (tool : AgentTool) : AgentTool :=
  { tool with
    cooldown_days := clamp (if tool.cooldown_days == 0 then 1 else tool.cooldown_days) 1 10 }

/-- Model of addTool from toolDb.ts: no-op on validation failure or on
a case-insensitive name collision, otherwise append the normalized
tool. -/
def addTool (db : ToolDB) (tool : AgentTool) : ToolDB :=
  if !validateTool tool then db
  else
    let normalized := normalizeTool tool
    if db.tools.any (fun t => strToLower t.name == strToLower normalized.name) then db
    else { db with tools := db.tools ++ [normalized] }

/-- Model of getToolById from toolDb.ts. -/
def getToolById (db : ToolDB) (id : String) : Option AgentTool :=
  db.tools.find? (fun t => t.id == id)

/-- Model of markToolUsed from toolDb.ts: record the last-used epoch
with an insert-or-overwrite. -/
def markToolUsed (db : ToolDB) (toolId : String) (epoch : ℚ) : ToolDB :=
  { db with usage := recordSet db.usage toolId epoch }

/-- Model of canUseTool from toolDb.ts. The source reads
`if (!lastUsed) return true`, so both a missing usage record and a
recorded epoch equal to 0 (falsy in JavaScript) report the tool as
usable. -/
def canUseTool (db : ToolDB) (toolId : String) (world : WorldState) : Bool :=
  match getToolById db toolId with
  | none => false
  | some tool =>
    match recordGet? db.usage toolId with
    | none => true
    | some lastUsed =>
      if lastUsed == 0 then true
      else decide (tool.cooldown_days ≤ world.time.epoch - lastUsed)

/-- Archive invariant: no two tools share a name case-insensitively. -/
def distinctToolNames (db : ToolDB) : Prop :=
  db.tools.Pairwise (fun a b => strToLower a.name ≠ strToLower b.name)

/-- Spec-side reading of canUse, written from the design document: true
iff the tool exists and either it was never marked used or the elapsed
epochs reach the cooldown. Used to compare against the code. -/
def specCanUse (db : ToolDB) (toolId : String) (currentEpoch : ℚ) : Bool :=
  match getToolById db toolId with
  | none => false
  | some tool =>
    match recordGet? db.usage toolId with
    | none => true
    | some lastUsed => decide (tool.cooldown_days ≤ currentEpoch - lastUsed)

/-! Concrete tool archive states used in the examples below. -/

/-- A minimal world state whose fields are all empty; time is day 1,
hour 0, epoch as given. -/
def worldAtEpoch (e : ℚ) : WorldState :=
  { time := { day := 1, hour := 0, epoch := e }
    map := { width := 24, height := 16, tiles := [], locations := [], routes := [] }
    factions := []
    npcs := []
    economy := { commodities := [], market_events := [] }
    quests := []
    event_log := []
    decision_traces := [] }

/-- A valid concrete tool with cooldown 3 used in the cooldown examples. -/
def ritualTool : AgentTool :=
  { id := "tool_ritual"
    name := "Ritual"
    description := "A shared ritual."
    action_guidance := "Invoke with care."
    parameters := some []
    cooldown_days := 3
    lore := none
    created_epoch := some 1 }

/-- The same tool with a lowercased name and a different id. -/
def ritualToolLower : AgentTool :=
  { ritualTool with id := "tool_ritual2", name := "ritual" }

/-- An archive holding only the ritual tool, never used. -/
def ritualDb : ToolDB :=
  { tools := [ritualTool], usage := [], last_evolved_epoch := none }

/-! ## Memory subsystem (memoryService) -/

/-- Model of parseFloat(x.toFixed(3)) for a nonnegative number: round
to the nearest multiple of one thousandth, ties away from zero. -/
def round3 (x : ℚ) : ℚ := (⌊x * 1000 + 1 / 2⌋ : ℚ) / 1000

/-- Model of parseFloat(x.toFixed(2)): round to the nearest multiple
of one hundredth. -/
def round2 (x : ℚ) : ℚ := (⌊x * 100 + 1 / 2⌋ : ℚ) / 100

/-- Model of updateMemoryStrengths from memoryService.ts: multiply
every memory strength by the daily multiplier, round the product to
three decimal places, then prune memories whose strength is at or
below 0.1. -/
def updateMemoryStrengths (npcs : List NPC) (dailyDecayMultiplier : ℚ) : List NPC :=
  npcs.map fun npc =>
    { npc with
      memory :=
        (npc.memory.map fun m =>
            { m with strength := round3 (m.strength * dailyDecayMultiplier) }).filter
          fun m => decide ((1 : ℚ) / 10 < m.strength) }

/-- Model of addMemoryToNPC from memoryService.ts: prepend a fresh
memory with strength 1. The generated id is passed in. -/
def addMemoryToNPC (npc : NPC) (text : String) (epoch : ℚ) (tags : List String)
    (freshId : String) : NPC :=
  { npc with
    memory :=
      { id := freshId, text := text, tags := tags, strength := 1,
        created_epoch := epoch, last_reinforced_epoch := epoch } :: npc.memory }

/-- Check that the character list n occurs at the head of h. -/
def charsStartWith : List Char → List Char → Bool
  | _, [] => true
  | [], _ :: _ => false
  | c :: cs, d :: ds => c == d && charsStartWith cs ds

/-- Check that the character list n occurs somewhere inside h. -/
def charsContain : List Char → List Char → Bool
  | [], n => charsStartWith [] n
  | c :: cs, n => charsStartWith (c :: cs) n || charsContain cs n

/-- Model of the JavaScript substring test s.includes(t). -/
def strIncludes (s t : String) : Bool := charsContain s.data t.data

/-- Relevance score of one memory against the lowercased query tokens:
the strength plus one half per token occurring in the lowercased text. -/
def memScore (queryTokens : List String) (m : MemoryItem) : ℚ :=
  queryTokens.foldl
    (fun sc t => if strIncludes (strToLower m.text) t then sc + 1 / 2 else sc)
    m.strength

/-- The scored memory list of an NPC for a query, in original order. -/
def scoredMemories (npc : NPC) (query : String) : List (MemoryItem × ℚ) :=
  npc.memory.map fun m => (m, memScore ((strToLower query).splitOn " ") m)

/-- Insert one scored element into a list sorted by descending score,
placing it before the first element of not larger score. Together with
sortScoredDesc this models the stable Array.prototype.sort with the
comparator (a, b) => b.score - a.score. -/
def insertScoredDesc (x : MemoryItem × ℚ) : List (MemoryItem × ℚ) → List (MemoryItem × ℚ)
  | [] => [x]
  | y :: ys => if x.2 < y.2 then y :: insertScoredDesc x ys else x :: y :: ys

/-- Stable sort by descending score. -/
def sortScoredDesc : List (MemoryItem × ℚ) → List (MemoryItem × ℚ)
  | [] => []
  | x :: xs => insertScoredDesc x (sortScoredDesc xs)

/-- Model of retrieveMemories from memoryService.ts: score every
memory, sort by descending score with the stable sort, and return the
first limit items. -/
def retrieveMemories (npc : NPC) (query : String) (limit : ℕ := 3) : List MemoryItem :=
  ((sortScoredDesc (scoredMemories npc query)).take limit).map fun p => p.1

/-! ## Construction resolver, influence tool, diff engine, economy
(toolService) -/

/-- The result record returned by the world-mutating tools. A failure
carries updates = none, the JavaScript null. -/
structure ToolResult where
  success : Bool
  message : String
  updates : Option WorldUpdates
deriving DecidableEq, Repr

/-- Rendering of the cost object by JSON.stringify inside the failure
message of buildStructure. -/
def costJson (cost : Resources) : String :=
  "\x7b\"gold\":" ++ toString cost.gold ++ ",\"grain\":" ++ toString cost.grain ++
    ",\"iron\":" ++ toString cost.iron ++ "\x7d"

/-- Model of buildStructure from toolService. The element read at the
found index is exactly the first element satisfying the search
predicate, so the lookups pair findIdx? with find?. The generated
building id is passed in as freshBuildingId. -/
def buildStructure (state : WorldState) (locationId buildingType ownerId : String)
    (cost : Resources) (freshBuildingId : String) : ToolResult :=
  match state.map.locations.findIdx? (fun l => l.id == locationId),
      state.map.locations.find? (fun l => l.id == locationId) with
  | some locationIndex, some location =>
    match state.factions.findIdx? (fun f => some f.id == location.faction_id),
        state.factions.find? (fun f => some f.id == location.faction_id) with
    | some factionIndex, some faction =>
      if faction.resources.gold < cost.gold ∨ faction.resources.grain < cost.grain ∨
          faction.resources.iron < cost.iron then
        { success := false, message := "Insufficient resources. Needed: " ++ costJson cost,
          updates := none }
      else
        let newResources : Resources :=
          { gold := faction.resources.gold - cost.gold
            grain := faction.resources.grain - cost.grain
            iron := faction.resources.iron - cost.iron }
        let newBuilding : Building :=
          { id := freshBuildingId, btype := buildingType, level := 1,
            owner_npc_id := ownerId, status := "active" }
        let newLocations :=
          state.map.locations.set locationIndex
            { location with
              buildings := location.buildings ++ [newBuilding]
              prosperity := location.prosperity + 5 }
        let newFactions :=
          state.factions.set factionIndex { faction with resources := newResources }
        { success := true
          message := "Built " ++ buildingType ++ " in " ++ location.name
          updates := some
            { map := some { state.map with locations := newLocations }
              factions := some newFactions } }
    | _, _ => { success := false, message := "Faction not found", updates := none }
  | _, _ => { success := false, message := "Location not found", updates := none }

/-- Model of generateWorldDiff from toolService: summaries for founded
locations, captures, building-count changes and price moves larger
than one unit. The removed list is initialized empty and never
extended. -/
def generateWorldDiff (prev curr : WorldState) (epoch : ℚ) : WorldDiff :=
  let added := curr.map.locations.filterMap fun loc =>
    match prev.map.locations.find? (fun p => p.id == loc.id) with
    | none => some ("Location " ++ loc.name ++ " founded")
    | some _ => none
  let locUpdated := curr.map.locations.flatMap fun loc =>
    match prev.map.locations.find? (fun p => p.id == loc.id) with
    | none => []
    | some pLoc =>
      (if pLoc.faction_id ≠ loc.faction_id then [loc.name ++ " captured by new faction"]
       else []) ++
      (if pLoc.buildings.length ≠ loc.buildings.length then ["New building in " ++ loc.name]
       else [])
  let commUpdated := curr.economy.commodities.filterMap fun c =>
    match prev.economy.commodities.find? (fun pc => pc.id == c.id) with
    | none => none
    | some pComm =>
      if 1 < |pComm.current_price - c.current_price| then
        some (c.id ++ " price changed from " ++ toString pComm.current_price ++ " to " ++
          toString c.current_price)
      else none
  let removed : List String := []
  { epoch := epoch
    title := "Day " ++ toString curr.time.day ++ " Changes"
    diff := { added := added, updated := locUpdated ++ commUpdated, removed := removed } }

/-- Inputs of the influence tool. -/
structure InfluenceInputs where
  target_type : String
  target_id : String
  field : String
  delta : ℚ
deriving DecidableEq, Repr

/-- Model of applyInfluence from toolService: shift one numeric field
of a faction, location or NPC, with the delta clamped into plus or
minus 50 and every governed field clamped to its declared bound. -/
def applyInfluence (state : WorldState) (inputs : InfluenceInputs) : ToolResult :=
  let targetType := inputs.target_type
  let targetId := inputs.target_id
  let delta := clamp inputs.delta (-50) 50
  if targetId == "" then { success := false, message := "Missing target_id", updates := none }
  else if targetType == "faction" then
    match state.factions.findIdx? (fun f => f.id == targetId),
        state.factions.find? (fun f => f.id == targetId) with
    | some factionIndex, some faction =>
      let u0 := faction
      let u1 := if inputs.field == "resources.gold" then
          { u0 with resources := { u0.resources with gold := max 0 (u0.resources.gold + delta) } }
        else u0
      let u2 := if inputs.field == "resources.grain" then
          { u1 with resources := { u1.resources with grain := max 0 (u1.resources.grain + delta) } }
        else u1
      let u3 := if inputs.field == "resources.iron" then
          { u2 with resources := { u2.resources with iron := max 0 (u2.resources.iron + delta) } }
        else u2
      let u4 := if inputs.field == "military.troops" then
          { u3 with military := { u3.military with troops := max 0 (u3.military.troops + delta) } }
        else u3
      let u5 := if inputs.field == "military.quality" then
          { u4 with military :=
            { u4.military with quality := clamp (u4.military.quality + delta * (2 / 100)) (2 / 10) 3 } }
        else u4
      { success := true
        message := faction.name ++ " shifted"
        updates := some { factions := some (state.factions.set factionIndex u5) } }
    | _, _ => { success := false, message := "Faction not found", updates := none }
  else if targetType == "location" then
    match state.map.locations.findIdx? (fun l => l.id == targetId),
        state.map.locations.find? (fun l => l.id == targetId) with
    | some locationIndex, some location =>
      let prosperity := location.prosperity
      let defense := location.defense
      let unrest := location.unrest
      let population := location.population
      let u0 := location
      let u1 := if inputs.field == "prosperity" then
          { u0 with prosperity := clamp (prosperity + delta) 0 100 } else u0
      let u2 := if inputs.field == "defense" then
          { u1 with defense := clamp (defense + delta) 0 100 } else u1
      let u3 := if inputs.field == "unrest" then
          { u2 with unrest := clamp (unrest + delta) 0 100 } else u2
      let u4 := if inputs.field == "population" then
          { u3 with population := max 0 (population + delta) } else u3
      { success := true
        message := location.name ++ " shifted"
        updates := some
          { map := some { state.map with locations := state.map.locations.set locationIndex u4 } } }
    | _, _ => { success := false, message := "Location not found", updates := none }
  else if targetType == "npc" then
    match state.npcs.findIdx? (fun n => n.id == targetId),
        state.npcs.find? (fun n => n.id == targetId) with
    | some npcIndex, some npc =>
      let u0 := npc
      let u1 := if inputs.field == "resources.gold" then
          { u0 with resources := { u0.resources with gold := max 0 (u0.resources.gold + delta) } }
        else u0
      let u2 := if inputs.field == "resources.influence" then
          { u1 with resources :=
            { u1.resources with influence := max 0 (u1.resources.influence + delta) } }
        else u1
      { success := true
        message := npc.name ++ " shifted"
        updates := some { npcs := some (state.npcs.set npcIndex u2) } }
    | _, _ => { success := false, message := "NPC not found", updates := none }
  else { success := false, message := "Unsupported target", updates := none }

/-- Model of simulateEconomy from toolService. The uniform random draw
of each commodity is passed in through rand, indexed by the position
of the commodity in the list; a draw in the interval from 0 to 1
yields a fluctuation between minus and plus the volatility. -/
def simulateEconomy (state : WorldState) (rand : ℕ → ℚ) : WorldUpdates :=
  let newCommodities := state.economy.commodities.enum.map fun ic =>
    let i := ic.1
    let c := ic.2
    let fluctuation := rand i * c.volatility * 2 - c.volatility
    let scarcity := c.demand / max 1 c.supply
    let priceChange : ℚ := 0
    let priceChange := if 12 / 10 < scarcity then priceChange + 1 else priceChange
    let priceChange := if scarcity < 8 / 10 then priceChange - 1 else priceChange
    let activeRoutes := state.map.routes.filter fun r =>
      r.commodity == c.id && r.status == "active"
    let routeFactor := (activeRoutes.length : ℚ) * (1 / 2)
    let nextPrice := c.current_price + priceChange + fluctuation -
      (if c.base_price < c.current_price then routeFactor else -routeFactor)
    let nextPrice := max 1 (round2 nextPrice)
    { c with current_price := nextPrice }
  { economy := some { state.economy with commodities := newCommodities } }

/-! ## Conflict resolver (godEngine) -/

/-- The structured reply of the external combat arbiter. Number fields
are optional; the source defaults a missing or zero field to 0 with
the pattern x || 0. -/
structure ArbiterOutcome where
  narrative : String
  attacker_casualties : Option ℚ
  defender_casualties : Option ℚ
  location_conquered : Bool
  defense_damage : Option ℚ
  unrest_change : Option ℚ
deriving DecidableEq, Repr

/-- Result of a combat resolution: a narrative outcome and a partial
state update. -/
structure CombatResult where
  outcome : String
  updates : WorldUpdates
deriving DecidableEq, Repr

/-- The deterministic neutral fallback returned when the arbiter call
fails: an inconclusive skirmish with zero state changes. -/
def skirmishFallback : CombatResult :=
  { outcome := "A chaotic skirmish erupted, but the dust settles with no clear victor."
    updates := emptyUpdates }

/-- Model of resolveCombatConflict from godEngine.ts. The arbiter call
is passed in as an Except value: an error models a thrown exception or
unusable reply, which the source catches and converts into the
deterministic skirmish fallback. A missing entity yields the fog-of-war
no-op. The unreachable index failures inside the try block are routed
to the same fallback that the catch produces. -/
def resolveCombatConflict (state : WorldState)
    (attackerFactionId defenderFactionId locationId : String)
    (arbiter : Except String ArbiterOutcome) : CombatResult :=
  let attackerQ := state.factions.find? (fun f => f.id == attackerFactionId)
  let defenderQ := state.factions.find? (fun f => f.id == defenderFactionId)
  let locationQ := state.map.locations.find? (fun l => l.id == locationId)
  match attackerQ, defenderQ, locationQ with
  | some attacker, some defender, some _ =>
    match arbiter with
    | Except.error _ => skirmishFallback
    | Except.ok result =>
      match state.factions.findIdx? (fun f => f.id == attackerFactionId),
          state.factions.findIdx? (fun f => f.id == defenderFactionId),
          state.map.locations.findIdx? (fun l => l.id == locationId) with
      | some attIndex, some defIndex, some locIndex =>
        match state.factions.get? attIndex, state.factions.get? defIndex,
            state.map.locations.get? locIndex with
        | some fAtt, some fDef, some loc =>
          let attLosses := min fAtt.military.troops (orZero result.attacker_casualties)
          let defLosses := min fDef.military.troops (orZero result.defender_casualties)
          let fs1 := state.factions.set attIndex
            { fAtt with military :=
              { fAtt.military with troops := fAtt.military.troops - attLosses } }
          let fs2 := match fs1.get? defIndex with
            | some fDef1 => fs1.set defIndex
                { fDef1 with military :=
                  { fDef1.military with troops := fDef1.military.troops - defLosses } }
            | none => fs1
          let newDefense := max 0 (loc.defense - orZero result.defense_damage)
          let newUnrest := min 100 (max 0 (loc.unrest + orZero result.unrest_change))
          let currentLoc := if result.location_conquered then
              { loc with
                faction_id := some attacker.id
                defense := max 0 (newDefense - 10)
                unrest := 100 }
            else { loc with defense := newDefense, unrest := newUnrest }
          let conquestText := if result.location_conquered then
              " " ++ attacker.name ++ " has SEIZED control!"
            else " " ++ defender.name ++ " held the line."
          { outcome := result.narrative ++ " (Lost: " ++ toString attLosses ++ " vs " ++
              toString defLosses ++ ")." ++ conquestText
            updates :=
              { factions := some fs2
                map := some
                  { state.map with locations := state.map.locations.set locIndex currentLoc } } }
        | _, _, _ => skirmishFallback
      | _, _, _ => skirmishFallback
  | _, _, _ =>
    { outcome := "The fog of war prevents resolution (Invalid IDs).", updates := emptyUpdates }

/-! ## Turn orchestrator (handleAdvanceTime) -/

/-- One tool call requested by a manager decision. -/
inductive ManagerCall where
  | build_structure (location_id building_type : String) (cost_gold cost_grain : ℚ)
  | simulate_combat (target_faction_id location_id : String)
  | execute_tool (tool_id : String)
  | other (name : String)
deriving DecidableEq, Repr

/-- One sub-action returned by the secondary tool-execution oracle. -/
inductive SubActionCall where
  | build_structure (location_id building_type : String) (cost_gold cost_grain : ℚ)
  | simulate_combat (target_faction_id location_id : String)
  | apply_influence (inputs : InfluenceInputs)
  | other (name : String)
deriving DecidableEq, Repr

/-- The reply of the tool-execution oracle: up to a few sub-actions
plus a summary line. -/
structure ToolExecution where
  calls : List SubActionCall
  summary : String
deriving DecidableEq, Repr

/-- One ambient world event produced by the oracle. -/
structure WorldEventData where
  etype : String
  title : String
  summary : String
deriving DecidableEq, Repr

/-- The external oracle collaborator: every externally-supplied reply
of one turn, as total functions of the visible context. -/
structure Oracle where
  managerAgent : NPC → WorldState → List ManagerCall × Option DecisionTrace
  arbiter : WorldState → String → String → String → Except String ArbiterOutcome
  toolExecAgent : WorldState → NPC → AgentTool → Option ToolExecution
  historyAgent : List String → String
  worldEventAgent : WorldState → Option WorldEventData
  toolEvolutionAgent : WorldState → ToolDB → Option AgentTool
  rand : ℕ → ℚ
  freshId : ℕ → String

/-- Accumulator threaded through one turn: the in-progress state, the
accumulated tool archive updates, the manager log lines, and a counter
for generated ids. -/
structure TurnAcc where
  ws : WorldState
  db : ToolDB
  logs : List String
  ctr : ℕ

/-- Model of the JavaScript pattern a || b on an optional string. -/
def jsOrString (a : Option String) (b : String) : String :=
  match a with
  | some s => if s == "" then b else s
  | none => b

/-- Shared tail of one manager tool call: on success merge the updates
into the state and append the log line when the message is nonempty. -/
def finishCall (manager : NPC) (acc : TurnAcc) (result : ToolResult) : TurnAcc :=
  if result.success then
    let acc := match result.updates with
      | some u => { acc with ws := applyUpdates acc.ws u }
      | none => acc
    if result.message == "" then acc
    else { acc with logs := acc.logs ++ [manager.name ++ ": " ++ result.message] }
  else acc

/-- One sub-action of a tool execution: dispatch to the construction
resolver, the conflict resolver or the influence tool, and merge a
successful update. -/
def runSubAction (o : Oracle) (manager : NPC) (acc : TurnAcc) (action : SubActionCall) :
    TurnAcc :=
  let actionResult : ToolResult :=
    match action with
    | SubActionCall.build_structure lid bt cg cgr =>
      buildStructure acc.ws lid bt manager.id { gold := cg, grain := cgr, iron := 0 }
        (o.freshId acc.ctr)
    | SubActionCall.simulate_combat tf lid =>
      let cRes := resolveCombatConflict acc.ws manager.faction_id tf lid
        (o.arbiter acc.ws manager.faction_id tf lid)
      { success := true, message := cRes.outcome, updates := some cRes.updates }
    | SubActionCall.apply_influence inputs => applyInfluence acc.ws inputs
    | SubActionCall.other _ => { success := false, message := "", updates := none }
  let ctr := match action with
    | SubActionCall.build_structure _ _ _ _ => acc.ctr + 1
    | _ => acc.ctr
  match actionResult.success, actionResult.updates with
  | true, some u => { acc with ws := applyUpdates acc.ws u, ctr := ctr }
  | _, _ => { acc with ctr := ctr }

/-- One manager tool call. Reads of the tool archive use the archive as
it was at the start of the turn (toolDb0, the captured component state),
while archive updates accumulate in the accumulator. -/
def runManagerCall (o : Oracle) (toolDb0 : ToolDB) (manager : NPC) (acc : TurnAcc)
    (call : ManagerCall) : TurnAcc :=
  match call with
  | ManagerCall.build_structure lid bt cg cgr =>
    let result := buildStructure acc.ws lid bt manager.id
      { gold := cg, grain := cgr, iron := 0 } (o.freshId acc.ctr)
    finishCall manager { acc with ctr := acc.ctr + 1 } result
  | ManagerCall.simulate_combat tf lid =>
    let cRes := resolveCombatConflict acc.ws manager.faction_id tf lid
      (o.arbiter acc.ws manager.faction_id tf lid)
    finishCall manager acc { success := true, message := cRes.outcome, updates := some cRes.updates }
  | ManagerCall.execute_tool tid =>
    match getToolById toolDb0 tid with
    | some tool =>
      if canUseTool toolDb0 tool.id acc.ws then
        match o.toolExecAgent acc.ws manager tool with
        | some execution =>
          let acc2 := execution.calls.foldl (runSubAction o manager) acc
          let acc3 := { acc2 with db := markToolUsed acc2.db tool.id acc2.ws.time.epoch }
          finishCall manager acc3
            { success := true, message := execution.summary, updates := none }
        | none =>
          finishCall manager acc
            { success := false, message := "Tool execution failed", updates := none }
      else
        finishCall manager acc { success := false, message := "Tool unavailable", updates := none }
    | none =>
      finishCall manager acc { success := false, message := "Tool unavailable", updates := none }
  | ManagerCall.other _ =>
    finishCall manager acc { success := false, message := "", updates := none }

/-- One manager iteration: request a decision, append the trace when
present, then run the requested tool calls in order. -/
def runManager (o : Oracle) (toolDb0 : ToolDB) (acc : TurnAcc) (manager : NPC) : TurnAcc :=
  let mr := o.managerAgent manager acc.ws
  let acc := match mr.2 with
    | some trace =>
      { acc with ws := { acc.ws with decision_traces := acc.ws.decision_traces ++ [trace] } }
    | none => acc
  mr.1.foldl (runManagerCall o toolDb0 manager) acc

/-- History step of the turn: when any manager action produced log
lines, request a one-line summary and append one event linked to the
last decision trace. -/
def historyStage (o : Oracle) (acc : TurnAcc) : TurnAcc :=
  if 0 < acc.logs.length then
    { acc with
      ws := { acc.ws with event_log := acc.ws.event_log ++ [{
        id := o.freshId acc.ctr
        epoch := acc.ws.time.epoch
        etype := "summary"
        title := "Day " ++ toString acc.ws.time.day ++ " Summary"
        summary := o.historyAgent acc.logs
        impact_tool_id := none
        decision_trace_id := match acc.ws.decision_traces.getLast? with
          | some t => some t.decision_trace_id
          | none => none }] }
      ctr := acc.ctr + 1 }
  else acc

/-- World-event step of the turn: append one ambient narrative event
when the oracle produces one. -/
def worldEventStage (o : Oracle) (acc : TurnAcc) : TurnAcc :=
  match o.worldEventAgent acc.ws with
  | some we =>
    { acc with
      ws := { acc.ws with event_log := acc.ws.event_log ++ [({
        id := o.freshId acc.ctr
        epoch := acc.ws.time.epoch
        etype := we.etype
        title := we.title
        summary := we.summary
        impact_tool_id := none
        decision_trace_id := none } : EventLogEntry)] }
      ctr := acc.ctr + 1 }
  | none => acc

/-- Tool-evolution step of the turn: at most once per epoch, add one
oracle-invented tool to the archive and log it. The guard reads the
archive captured at the start of the turn. -/
def toolEvolutionStage (o : Oracle) (toolDb : ToolDB) (acc : TurnAcc) : TurnAcc :=
  if toolDb.last_evolved_epoch ≠ some acc.ws.time.epoch then
    match o.toolEvolutionAgent acc.ws toolDb with
    | some newTool =>
      { acc with
        db := { addTool acc.db newTool with last_evolved_epoch := some acc.ws.time.epoch }
        ws := { acc.ws with event_log := acc.ws.event_log ++ [({
          id := o.freshId acc.ctr
          epoch := acc.ws.time.epoch
          etype := "tool_evolution"
          title := "Tool Emerged: " ++ newTool.name
          summary := jsOrString newTool.lore newTool.description
          impact_tool_id := some newTool.id
          decision_trace_id := none } : EventLogEntry)] }
        ctr := acc.ctr + 1 }
    | none => acc
  else acc

/-- The manager loop followed by the three append stages. -/
def stagesPipeline (o : Oracle) (toolDb : ToolDB) (managers : List NPC) (acc : TurnAcc) :
    TurnAcc :=
  toolEvolutionStage o toolDb
    (worldEventStage o (historyStage o (managers.foldl (runManager o toolDb) acc)))

/-- The world state after memory decay and the economy tick, before
the manager loop. -/
def preManagerState (bundle : WorldBundle) (o : Oracle) : WorldState :=
  let s1 := { bundle.world_state with
    npcs := updateMemoryStrengths bundle.world_state.npcs (9 / 10) }
  applyUpdates s1 (simulateEconomy s1 o.rand)

/-- The bounded manager subset: the first two NPCs whose role is
Leader or Merchant. -/
def managersOf (s : WorldState) : List NPC :=
  (s.npcs.filter fun n => n.role == "Leader" || n.role == "Merchant").take 2

/-- The turn accumulator after decay, economy tick, manager loop,
history summary, world event and tool evolution, before the time
increment and diff commit. -/
def turnAccOf (bundle : WorldBundle) (toolDb : ToolDB) (o : Oracle) : TurnAcc :=
  stagesPipeline o toolDb (managersOf (preManagerState bundle o))
    { ws := preManagerState bundle o, db := toolDb, logs := [], ctr := 0 }

/-- Model of handleAdvanceTime from the application shell: one epoch
transition. Sequences memory decay, the economy tick, the manager loop,
the optional history summary, the optional ambient world event, the
once-per-epoch tool evolution, the day and epoch increments, and the
world diff commit. -/
def handleAdvanceTime (bundle : WorldBundle) (toolDb : ToolDB) (o : Oracle) :
    WorldBundle × ToolDB :=
  let prevState := bundle.world_state
  let acc := turnAccOf bundle toolDb o
  let wsF := { acc.ws with
    time := { acc.ws.time with
      day := acc.ws.time.day + 1
      epoch := acc.ws.time.epoch + 1 } }
  let diff := generateWorldDiff prevState wsF wsF.time.epoch
  ({ world_state := wsF, world_diffs := bundle.world_diffs ++ [diff] }, acc.db)

/-! ## Concrete states used by the examples -/

/-- Merging a tool result into a state: a failure carries no updates
and leaves the state untouched. -/
def applyToolResult (s : WorldState) (r : ToolResult) : WorldState :=
  match r.updates with
  | some u => applyUpdates s u
  | none => s

/-- The empty tool archive. -/
def emptyToolDb : ToolDB := { tools := [], usage := [], last_evolved_epoch := none }

/-- The ritual archive after marking the tool used at epoch 0. -/
def usedAtZeroDb : ToolDB := markToolUsed ritualDb "tool_ritual" 0

/-- The ritual archive after marking the tool used at epoch 10. -/
def markedAtTenDb : ToolDB := markToolUsed ritualDb "tool_ritual" 10

/-- An invalid tool: the name is missing. -/
def invalidTool : AgentTool := { ritualTool with id := "tool_bad", name := "" }

/-- A faction with resources 10 gold, 5 grain, 0 iron. -/
def exampleFaction : Faction :=
  { id := "f1", name := "Guild", archetype := "commerce",
    resources := { gold := 10, grain := 5, iron := 0 },
    military := { troops := 100, quality := 1 } }

/-- A location owned by the example faction. -/
def exampleLocation : Location :=
  { id := "loc1", name := "Port", ltype := "town", x := 2, y := 3,
    faction_id := some "f1", population := 50, buildings := [],
    defense := 40, prosperity := 60, unrest := 10 }

/-- A world whose only faction cannot afford a 20 gold cost. -/
def poorState : WorldState :=
  { worldAtEpoch 1 with
    map := { (worldAtEpoch 1).map with locations := [exampleLocation] }
    factions := [exampleFaction] }

/-- A build cost of 20 gold. -/
def bigCost : Resources := { gold := 20, grain := 0, iron := 0 }

/-- A rich faction used in the prosperity example. -/
def richFaction : Faction :=
  { id := "f9", name := "Crown", archetype := "order",
    resources := { gold := 100, grain := 100, iron := 100 },
    military := { troops := 50, quality := 1 } }

/-- A location whose prosperity is already 98. -/
def nearMaxLocation : Location :=
  { id := "loc9", name := "Citadel", ltype := "capital", x := 1, y := 1,
    faction_id := some "f9", population := 200, buildings := [],
    defense := 80, prosperity := 98, unrest := 5 }

/-- A world where a successful build pushes prosperity past 100. -/
def prosperousState : WorldState :=
  { worldAtEpoch 1 with
    map := { (worldAtEpoch 1).map with locations := [nearMaxLocation] }
    factions := [richFaction] }

/-- A small build cost affordable by the rich faction. -/
def smallCost : Resources := { gold := 10, grain := 0, iron := 0 }

/-- The attacking faction of the combat example, 30 troops. -/
def attackerFaction : Faction :=
  { id := "fa", name := "Horde", archetype := "chaos",
    resources := { gold := 0, grain := 0, iron := 0 },
    military := { troops := 30, quality := 1 } }

/-- The defending faction of the combat example, 40 troops. -/
def defenderFaction : Faction :=
  { id := "fd", name := "League", archetype := "order",
    resources := { gold := 0, grain := 0, iron := 0 },
    military := { troops := 40, quality := 1 } }

/-- The contested location of the combat example. -/
def battlefield : Location :=
  { id := "locb", name := "Ford", ltype := "outpost", x := 4, y := 4,
    faction_id := some "fd", population := 10, buildings := [],
    defense := 50, prosperity := 20, unrest := 20 }

/-- A world holding the two combat factions and the battlefield. -/
def warState : WorldState :=
  { worldAtEpoch 1 with
    map := { (worldAtEpoch 1).map with locations := [battlefield] }
    factions := [attackerFaction, defenderFaction] }

/-- An arbiter reply reporting more attacker casualties than the
attacker has troops. -/
def bigCasualties : ArbiterOutcome :=
  { narrative := "The lines shattered at dawn."
    attacker_casualties := some 999
    defender_casualties := some 5
    location_conquered := false
    defense_damage := some 5
    unrest_change := some 10 }

/-- A memory of strength 0.9996. -/
def floodMemory : MemoryItem :=
  { id := "m1", text := "the flood", tags := [],
    strength := 2499 / 2500, created_epoch := 0, last_reinforced_epoch := 0 }

/-- An NPC holding one memory of strength 0.9996. -/
def decayNpc : NPC :=
  { id := "n1", name := "Elder", role := "Citizen", faction_id := "f1",
    resources := { gold := 0, influence := 0 },
    memory := [floodMemory],
    location_id := "loc1", status := "idle" }

/-- The image of decayNpc under one decay with multiplier 0.9. -/
def decayedNpc : NPC :=
  { decayNpc with memory := [{ floodMemory with strength := 9 / 10 }] }

/-- The building record appended by a successful buildStructure call. -/
def builtBuilding (bid bt oid : String) : Building :=
  { id := bid, btype := bt, level := 1, owner_npc_id := oid, status := "active" }

/-- The declared bounds of the clamped location fields: unrest, defense
and prosperity within 0 to 100, population nonnegative. -/
def locInBounds (loc : Location) : Prop :=
  0 ≤ loc.unrest ∧ loc.unrest ≤ 100 ∧ 0 ≤ loc.defense ∧ loc.defense ≤ 100 ∧
    0 ≤ loc.prosperity ∧ loc.prosperity ≤ 100 ∧ 0 ≤ loc.population

/-- An influence request adding 50 prosperity to the citadel. -/
def influenceInputs9 : InfluenceInputs :=
  { target_type := "location", target_id := "loc9", field := "prosperity", delta := 50 }

/-- The citadel after the influence request: prosperity clamped at
100. -/
def locationAfter9 : Location := { nearMaxLocation with prosperity := 100 }

/-- The map after the influence request. -/
def mapAfter9 : GameMap := { prosperousState.map with locations := [locationAfter9] }

/-- The updates object produced by the influence request. -/
def updatesAfter9 : WorldUpdates := { map := some mapAfter9 }

/-- A bundle holding an empty world at day 1, epoch 1. -/
def quietBundle : WorldBundle := { world_state := worldAtEpoch 1, world_diffs := [] }

/-- An oracle that declines every optional contribution. -/
def trivialOracle : Oracle :=
  { managerAgent := fun _ _ => ([], none)
    arbiter := fun _ _ _ _ => Except.error "offline"
    toolExecAgent := fun _ _ _ => none
    historyAgent := fun _ => ""
    worldEventAgent := fun _ => none
    toolEvolutionAgent := fun _ _ => none
    rand := fun _ => 0
    freshId := fun n => "id_" ++ toString n }

/-- An oracle that always produces one ambient world event. -/
def eventfulOracle : Oracle :=
  { trivialOracle with
    worldEventAgent := fun _ =>
      some { etype := "world_event", title := "Omen", summary := "A sign crosses the sky." } }

/-! ## Helper lemmas -/

/-- The first element satisfying a predicate is the element stored at
the first index satisfying it. -/
theorem find?_eq_findIdx?_bind {α : Type} (l : List α) (p : α → Bool) :
    l.find? p = (l.findIdx? p).bind fun i => l.get? i := by
  induction l with
  | nil => rfl
  | cons a t ih =>
    by_cases h : p a
    · simp [List.find?_cons, h, List.findIdx?_cons]
    · simp [List.find?_cons, h, List.findIdx?_cons, ih, Option.bind_map]

/-- Merging an updates object never changes the clock. -/
theorem applyUpdates_time_eq (s : WorldState) (u : WorldUpdates) :
    (applyUpdates s u).time = s.time := rfl

/-- Merging an updates object never changes the event log. -/
theorem applyUpdates_event_log_eq (s : WorldState) (u : WorldUpdates) :
    (applyUpdates s u).event_log = s.event_log := rfl

/-- A sub-action changes neither the clock nor the event log. -/
theorem runSubAction_preserve (o : Oracle) (m : NPC) (acc : TurnAcc) (a : SubActionCall) :
    (runSubAction o m acc a).ws.time = acc.ws.time ∧
      (runSubAction o m acc a).ws.event_log = acc.ws.event_log := by
  unfold runSubAction
  dsimp only
  split <;> exact ⟨rfl, rfl⟩

/-- Folding a clock-and-log-preserving step preserves the clock and
the event log. -/
theorem foldl_turn_preserve {β : Type} (f : TurnAcc → β → TurnAcc)
    (hf : ∀ acc b, (f acc b).ws.time = acc.ws.time ∧ (f acc b).ws.event_log = acc.ws.event_log) :
    ∀ (l : List β) (acc : TurnAcc),
      (l.foldl f acc).ws.time = acc.ws.time ∧
        (l.foldl f acc).ws.event_log = acc.ws.event_log := by
  intro l
  induction l with
  | nil => intro acc; exact ⟨rfl, rfl⟩
  | cons b t ih =>
    intro acc
    have h1 := hf acc b
    have h2 := ih (f acc b)
    exact ⟨h2.1.trans h1.1, h2.2.trans h1.2⟩

/-- Finishing a manager call changes neither the clock nor the event
log. -/
theorem finishCall_preserve (m : NPC) (acc : TurnAcc) (r : ToolResult) :
    (finishCall m acc r).ws.time = acc.ws.time ∧
      (finishCall m acc r).ws.event_log = acc.ws.event_log := by
  unfold finishCall
  dsimp only
  split <;> (try split) <;> (try split) <;> exact ⟨rfl, rfl⟩

/-- A manager tool call changes neither the clock nor the event log. -/
theorem runManagerCall_preserve (o : Oracle) (db0 : ToolDB) (m : NPC) (acc : TurnAcc)
    (c : ManagerCall) :
    (runManagerCall o db0 m acc c).ws.time = acc.ws.time ∧
      (runManagerCall o db0 m acc c).ws.event_log = acc.ws.event_log := by
  cases c with
  | build_structure lid bt cg cgr => exact finishCall_preserve m _ _
  | simulate_combat tf lid => exact finishCall_preserve m acc _
  | execute_tool tid =>
    unfold runManagerCall
    dsimp only
    rcases hT : getToolById db0 tid with _ | tool
    · simp only [hT]
      exact finishCall_preserve m acc _
    · simp only [hT]
      by_cases hC : canUseTool db0 tool.id acc.ws = true
      · simp only [hC, if_true]
        rcases hE : o.toolExecAgent acc.ws m tool with _ | execution
        · simp only [hE]
          exact finishCall_preserve m acc _
        · simp only [hE]
          have hfold := foldl_turn_preserve (runSubAction o m) (runSubAction_preserve o m)
            execution.calls acc
          have hfc := finishCall_preserve m
            { execution.calls.foldl (runSubAction o m) acc with
              db := markToolUsed (execution.calls.foldl (runSubAction o m) acc).db tool.id
                (execution.calls.foldl (runSubAction o m) acc).ws.time.epoch }
            { success := true, message := execution.summary, updates := none }
          exact ⟨hfc.1.trans hfold.1, hfc.2.trans hfold.2⟩
      · simp only [Bool.not_eq_true] at hC
        simp only [hC, Bool.false_eq_true, if_false]
        exact finishCall_preserve m acc _
  | other n => exact finishCall_preserve m acc _

/-- A full manager iteration changes neither the clock nor the event
log. -/
theorem runManager_preserve (o : Oracle) (db0 : ToolDB) (acc : TurnAcc) (m : NPC) :
    (runManager o db0 acc m).ws.time = acc.ws.time ∧
      (runManager o db0 acc m).ws.event_log = acc.ws.event_log := by
  unfold runManager
  dsimp only
  rcases ht : (o.managerAgent m acc.ws).2 with _ | tr
  · simp only [ht]
    have hfold := foldl_turn_preserve (runManagerCall o db0 m)
      (runManagerCall_preserve o db0 m) (o.managerAgent m acc.ws).1 acc
    exact ⟨hfold.1, hfold.2⟩
  · simp only [ht]
    have hfold := foldl_turn_preserve (runManagerCall o db0 m)
      (runManagerCall_preserve o db0 m) (o.managerAgent m acc.ws).1
      { acc with ws := { acc.ws with decision_traces := acc.ws.decision_traces ++ [tr] } }
    exact ⟨hfold.1, hfold.2⟩

/-- The history stage preserves the clock and only appends to the
event log. -/
theorem historyStage_preserve (o : Oracle) (acc : TurnAcc) :
    (historyStage o acc).ws.time = acc.ws.time ∧
      acc.ws.event_log.length ≤ (historyStage o acc).ws.event_log.length := by
  unfold historyStage
  split
  · exact ⟨rfl, by simp⟩
  · exact ⟨rfl, le_refl _⟩

/-- The world-event stage preserves the clock, only appends to the
event log, and appends exactly one entry when the oracle produces an
event. -/
theorem worldEventStage_preserve (o : Oracle) (acc : TurnAcc) :
    (worldEventStage o acc).ws.time = acc.ws.time ∧
      acc.ws.event_log.length ≤ (worldEventStage o acc).ws.event_log.length ∧
      ((o.worldEventAgent acc.ws).isSome →
        acc.ws.event_log.length + 1 ≤ (worldEventStage o acc).ws.event_log.length) := by
  unfold worldEventStage
  rcases h : o.worldEventAgent acc.ws with _ | we
  · exact ⟨rfl, le_refl _, by simp⟩
  · exact ⟨rfl, by simp, fun _ => by simp⟩

/-- The tool-evolution stage preserves the clock and only appends to
the event log. -/
theorem toolEvolutionStage_preserve (o : Oracle) (tdb : ToolDB) (acc : TurnAcc) :
    (toolEvolutionStage o tdb acc).ws.time = acc.ws.time ∧
      acc.ws.event_log.length ≤ (toolEvolutionStage o tdb acc).ws.event_log.length := by
  unfold toolEvolutionStage
  split
  · rcases h : o.toolEvolutionAgent acc.ws tdb with _ | nt
    · exact ⟨rfl, le_refl _⟩
    · exact ⟨rfl, by simp⟩
  · exact ⟨rfl, le_refl _⟩

/-- The three append stages after any manager loop preserve the
clock. -/
theorem stagesPipeline_time (o : Oracle) (tdb : ToolDB) (ms : List NPC) (acc : TurnAcc) :
    (stagesPipeline o tdb ms acc).ws.time = acc.ws.time := by
  unfold stagesPipeline
  rw [(toolEvolutionStage_preserve o tdb _).1, (worldEventStage_preserve o _).1,
    (historyStage_preserve o _).1,
    (foldl_turn_preserve (runManager o tdb) (runManager_preserve o tdb) ms acc).1]

/-- The three append stages after any manager loop only grow the event
log. -/
theorem stagesPipeline_event_log_le (o : Oracle) (tdb : ToolDB) (ms : List NPC) (acc : TurnAcc) :
    acc.ws.event_log.length ≤ (stagesPipeline o tdb ms acc).ws.event_log.length := by
  unfold stagesPipeline
  have h0 := (foldl_turn_preserve (runManager o tdb) (runManager_preserve o tdb) ms acc).2
  calc acc.ws.event_log.length
      = _ := (congrArg List.length h0).symm
    _ ≤ _ := (historyStage_preserve o _).2
    _ ≤ _ := (worldEventStage_preserve o _).2.1
    _ ≤ _ := (toolEvolutionStage_preserve o tdb _).2

/-- When the world-event oracle always produces an event, the stages
grow the event log by at least one entry. -/
theorem stagesPipeline_event_log_succ (o : Oracle) (tdb : ToolDB) (ms : List NPC) (acc : TurnAcc)
    (hwe : ∀ s, (o.worldEventAgent s).isSome) :
    acc.ws.event_log.length + 1 ≤ (stagesPipeline o tdb ms acc).ws.event_log.length := by
  unfold stagesPipeline
  have h0 := (foldl_turn_preserve (runManager o tdb) (runManager_preserve o tdb) ms acc).2
  calc acc.ws.event_log.length + 1
      = _ + 1 := by rw [congrArg List.length h0]
    _ ≤ _ + 1 := Nat.add_le_add_right (historyStage_preserve o _).2 1
    _ ≤ _ := (worldEventStage_preserve o _).2.2 (hwe _)
    _ ≤ _ := (toolEvolutionStage_preserve o tdb _).2

/-- The whole pre-increment pipeline preserves the clock. -/
theorem turnAccOf_time (bundle : WorldBundle) (toolDb : ToolDB) (o : Oracle) :
    (turnAccOf bundle toolDb o).ws.time = bundle.world_state.time :=
  stagesPipeline_time o toolDb (managersOf (preManagerState bundle o))
    { ws := preManagerState bundle o, db := toolDb, logs := [], ctr := 0 }

/-- The whole pre-increment pipeline only appends to the event log. -/
theorem turnAccOf_event_log_le (bundle : WorldBundle) (toolDb : ToolDB) (o : Oracle) :
    bundle.world_state.event_log.length ≤ (turnAccOf bundle toolDb o).ws.event_log.length :=
  stagesPipeline_event_log_le o toolDb (managersOf (preManagerState bundle o))
    { ws := preManagerState bundle o, db := toolDb, logs := [], ctr := 0 }

/-- When the world-event oracle always produces an event, the pipeline
grows the event log by at least one entry. -/
theorem turnAccOf_event_log_succ (bundle : WorldBundle) (toolDb : ToolDB) (o : Oracle)
    (hwe : ∀ s, (o.worldEventAgent s).isSome) :
    bundle.world_state.event_log.length + 1 ≤ (turnAccOf bundle toolDb o).ws.event_log.length :=
  stagesPipeline_event_log_succ o toolDb (managersOf (preManagerState bundle o))
    { ws := preManagerState bundle o, db := toolDb, logs := [], ctr := 0 } hwe

/-- Inserting into a descending list permutes consing. -/
theorem insertScoredDesc_perm (x : MemoryItem × ℚ) (l : List (MemoryItem × ℚ)) :
    (insertScoredDesc x l).Perm (x :: l) := by
  induction l with
  | nil => exact List.Perm.refl _
  | cons y ys ih =>
    unfold insertScoredDesc
    split
    · exact (List.Perm.cons y ih).trans (List.Perm.swap x y ys)
    · exact List.Perm.refl _

/-- Inserting into a descending-sorted list keeps it sorted. -/
theorem insertScoredDesc_sorted (x : MemoryItem × ℚ) (l : List (MemoryItem × ℚ))
    (h : l.Pairwise (fun a b => b.2 ≤ a.2)) :
    (insertScoredDesc x l).Pairwise (fun a b => b.2 ≤ a.2) := by
  induction l with
  | nil => simp [insertScoredDesc]
  | cons y ys ih =>
    rw [List.pairwise_cons] at h
    unfold insertScoredDesc
    split
    · next hlt =>
      rw [List.pairwise_cons]
      refine ⟨?_, ih h.2⟩
      intro b hb
      rcases List.mem_cons.mp ((insertScoredDesc_perm x ys).mem_iff.mp hb) with rfl | hbys
      · exact le_of_lt hlt
      · exact h.1 b hbys
    · next hlt =>
      rw [List.pairwise_cons]
      refine ⟨?_, List.pairwise_cons.mpr h⟩
      intro b hb
      rcases List.mem_cons.mp hb with rfl | hbys
      · exact le_of_not_lt hlt
      · exact (h.1 b hbys).trans (le_of_not_lt hlt)

/-- Inserting commutes with filtering on an exact score: the stability
core of the descending insertion sort. -/
theorem insertScoredDesc_filter (x : MemoryItem × ℚ) (l : List (MemoryItem × ℚ)) (q : ℚ) :
    (insertScoredDesc x l).filter (fun p => p.2 == q) =
      (x :: l).filter (fun p => p.2 == q) := by
  induction l with
  | nil => rfl
  | cons y ys ih =>
    unfold insertScoredDesc
    split
    · next hlt =>
      by_cases hx : x.2 = q <;> by_cases hy : y.2 = q
      · exact absurd (hx.trans hy.symm) (ne_of_lt hlt)
      · simp [List.filter_cons, hx, hy, ih]
      · simp [List.filter_cons, hx, hy, ih]
      · simp [List.filter_cons, hx, hy, ih]
    · rfl

/-- The descending sort is a permutation. -/
theorem sortScoredDesc_perm (l : List (MemoryItem × ℚ)) : (sortScoredDesc l).Perm l := by
  induction l with
  | nil => exact List.Perm.refl _
  | cons x xs ih =>
    exact (insertScoredDesc_perm x (sortScoredDesc xs)).trans (List.Perm.cons x ih)

/-- The descending sort sorts by nonincreasing score. -/
theorem sortScoredDesc_sorted (l : List (MemoryItem × ℚ)) :
    (sortScoredDesc l).Pairwise (fun a b => b.2 ≤ a.2) := by
  induction l with
  | nil => exact List.Pairwise.nil
  | cons x xs ih => exact insertScoredDesc_sorted x (sortScoredDesc xs) ih

/-- The descending sort is stable: elements of any fixed score keep
their original relative order. -/
theorem sortScoredDesc_filter (l : List (MemoryItem × ℚ)) (q : ℚ) :
    (sortScoredDesc l).filter (fun p => p.2 == q) = l.filter (fun p => p.2 == q) := by
  induction l with
  | nil => rfl
  | cons x xs ih =>
    calc (insertScoredDesc x (sortScoredDesc xs)).filter (fun p => p.2 == q)
        = (x :: sortScoredDesc xs).filter (fun p => p.2 == q) :=
          insertScoredDesc_filter x (sortScoredDesc xs) q
      _ = _ := by
          by_cases hx : x.2 = q <;> simp [List.filter_cons, hx, ih]

/-- Folding the half-point bumps equals counting the matching tokens. -/
theorem foldl_half_point (ts : List String) (p : String → Bool) (init : ℚ) :
    ts.foldl (fun sc t => if p t then sc + 1 / 2 else sc) init =
      init + ((ts.filter p).length : ℚ) * (1 / 2) := by
  induction ts generalizing init with
  | nil => simp
  | cons t ts ih =>
    by_cases h : p t
    · simp only [List.foldl_cons, h, if_true, ih, List.filter_cons, List.length_cons]
      push_cast
      ring
    · rw [List.foldl_cons, if_neg h, ih]
      have hf : List.filter p (t :: ts) = List.filter p ts := by simp [List.filter_cons, h]
      rw [hf]

/-! ## Claim theorems -/

/-- C10: for every pair of world-state snapshots and every epoch, the
diff produced by generateWorldDiff has an empty removed list; no
removal of a location or commodity is ever reported. -/
theorem generateWorldDiff_removed_empty (prev curr : WorldState) (epoch : ℚ) :
    (generateWorldDiff prev curr epoch).diff.removed = [] := rfl

/-- C7 counterexample: a tool with cooldown 3 marked used at epoch 0 is
reported usable at epoch 1 by the code, while the specified rule
(tool exists and either never used or elapsed at least cooldown)
reports it unusable; the claimed equivalence fails at mark epoch 0. -/
theorem canUse_epoch_zero_mismatch :
    canUseTool usedAtZeroDb "tool_ritual" (worldAtEpoch 1) = true ∧
      specCanUse usedAtZeroDb "tool_ritual" 1 = false := by
  constructor
  · norm_num [canUseTool, getToolById, usedAtZeroDb, markToolUsed, ritualDb, ritualTool,
      recordSet, recordGet?, worldAtEpoch]
  · norm_num [specCanUse, getToolById, usedAtZeroDb, markToolUsed, ritualDb, ritualTool,
      recordSet, recordGet?]

/-- C7 (amended): canUse returns true iff the tool exists and either
there is no usage record, or the recorded last-used epoch is 0 (falsy,
treated as never used), or the elapsed epochs reach the cooldown; in
particular the cooldown 3 tool marked used at epoch 10 is blocked at
epochs 10, 11, 12 and usable at epoch 13. -/
theorem canUseTool_amended :
    (∀ db toolId w, canUseTool db toolId w = true ↔
      ∃ tool, getToolById db toolId = some tool ∧
        (recordGet? db.usage toolId = none ∨ recordGet? db.usage toolId = some 0 ∨
          ∃ l, recordGet? db.usage toolId = some l ∧
            tool.cooldown_days ≤ w.time.epoch - l)) ∧
    canUseTool markedAtTenDb "tool_ritual" (worldAtEpoch 10) = false ∧
    canUseTool markedAtTenDb "tool_ritual" (worldAtEpoch 11) = false ∧
    canUseTool markedAtTenDb "tool_ritual" (worldAtEpoch 12) = false ∧
    canUseTool markedAtTenDb "tool_ritual" (worldAtEpoch 13) = true := by
  have heval : ∀ e : ℚ, canUseTool markedAtTenDb "tool_ritual" (worldAtEpoch e) =
      decide ((3 : ℚ) ≤ e - 10) := by
    intro e
    norm_num [canUseTool, getToolById, markedAtTenDb, markToolUsed, ritualDb, ritualTool,
      recordSet, recordGet?, worldAtEpoch]
  refine ⟨?_, by rw [heval]; norm_num, by rw [heval]; norm_num,
    by rw [heval]; norm_num, by rw [heval]; norm_num⟩
  intro db toolId w
  unfold canUseTool
  rcases h1 : getToolById db toolId with _ | tool
  · simp
  · rcases h2 : recordGet? db.usage toolId with _ | lastUsed
    · simp
    · by_cases h3 : lastUsed = 0
      · subst h3
        simp
      · simp [h3, beq_iff_eq]

/-- C8: addTool is a no-op on validation failure and on a
case-insensitive name collision, otherwise appends the tool with
cooldown normalized into the interval from 1 to 10; consequently
case-insensitive distinctness of tool names is preserved, and adding
Ritual then ritual leaves exactly one tool. -/
theorem addTool_uniqueness :
    (∀ db tool, validateTool tool = false → addTool db tool = db) ∧
    (∀ db tool,
      db.tools.any (fun t => strToLower t.name == strToLower (normalizeTool tool).name) = true →
      addTool db tool = db) ∧
    (∀ db tool, validateTool tool = true →
      db.tools.any (fun t => strToLower t.name == strToLower (normalizeTool tool).name) = false →
      (addTool db tool).tools = db.tools ++ [normalizeTool tool] ∧
        1 ≤ (normalizeTool tool).cooldown_days ∧ (normalizeTool tool).cooldown_days ≤ 10) ∧
    (∀ db tool, distinctToolNames db → distinctToolNames (addTool db tool)) ∧
    (addTool (addTool emptyToolDb ritualTool) ritualToolLower).tools.length = 1 := by
  refine ⟨?_, ?_, ?_, ?_, by
    simp +decide [addTool, validateTool, normalizeTool, emptyToolDb, ritualTool,
      ritualToolLower, strToLower]⟩
  · intro db tool h
    simp [addTool, h]
  · intro db tool h
    by_cases hv : validateTool tool
    · simp [addTool, hv, h]
    · simp [addTool, hv]
  · intro db tool hv hd
    refine ⟨by simp [addTool, hv, hd], le_max_left 1 _, ?_⟩
    exact max_le (by norm_num) (min_le_left 10 _)
  · intro db tool hdist
    by_cases hv : validateTool tool
    · by_cases hd : db.tools.any
        (fun t => strToLower t.name == strToLower (normalizeTool tool).name) = true
      · simpa [addTool, hv, hd] using hdist
      · rw [Bool.not_eq_true] at hd
        have htools : (addTool db tool).tools = db.tools ++ [normalizeTool tool] := by
          simp [addTool, hv, hd]
        unfold distinctToolNames at hdist ⊢
        rw [htools, List.pairwise_append]
        refine ⟨hdist, by simp, ?_⟩
        intro a ha b hb
        simp only [List.mem_singleton] at hb
        subst hb
        simp only [List.any_eq_false] at hd
        have := hd a ha
        simpa [beq_iff_eq] using this
    · simpa [addTool, hv] using hdist

/-- C1: every failure path of buildStructure (location missing, owning
faction missing, insufficient resources) returns success false with no
updates, leaving the input state unchanged; in particular a faction
with gold 10, grain 5, iron 0 facing a cost of 20 gold fails with the
insufficient-resources message and keeps its resources 10, 5, 0. -/
theorem buildStructure_failure_is_noop :
    (∀ (s : WorldState) (lid bt oid bid : String) (cost : Resources) (li fi : ℕ)
        (loc : Location) (faction : Faction),
      s.map.locations.findIdx? (fun l => l.id == lid) = some li →
      s.map.locations.find? (fun l => l.id == lid) = some loc →
      s.factions.findIdx? (fun f => some f.id == loc.faction_id) = some fi →
      s.factions.find? (fun f => some f.id == loc.faction_id) = some faction →
      (faction.resources.gold < cost.gold ∨ faction.resources.grain < cost.grain ∨
        faction.resources.iron < cost.iron) →
      buildStructure s lid bt oid cost bid =
        { success := false, message := "Insufficient resources. Needed: " ++ costJson cost,
          updates := none }) ∧
    (∀ (s : WorldState) (lid bt oid bid : String) (cost : Resources),
      (buildStructure s lid bt oid cost bid).success = false →
      (buildStructure s lid bt oid cost bid).updates = none ∧
        applyToolResult s (buildStructure s lid bt oid cost bid) = s) ∧
    (buildStructure poorState "loc1" "market" "npc1" bigCost "b1" =
      { success := false, message := "Insufficient resources. Needed: " ++ costJson bigCost,
        updates := none } ∧
      applyToolResult poorState (buildStructure poorState "loc1" "market" "npc1" bigCost "b1") =
        poorState ∧
      poorState.factions.map Faction.resources = [{ gold := 10, grain := 5, iron := 0 }]) := by
  have hconc : buildStructure poorState "loc1" "market" "npc1" bigCost "b1" =
      { success := false, message := "Insufficient resources. Needed: " ++ costJson bigCost,
        updates := none } := by
    unfold buildStructure
    norm_num [poorState, worldAtEpoch, exampleLocation, exampleFaction, bigCost,
      List.findIdx?]
  refine ⟨?_, ?_, hconc, by rw [hconc]; rfl, rfl⟩
  · intro s lid bt oid bid cost li fi loc faction h1 h2 h3 h4 h5
    unfold buildStructure
    simp only [h1, h2, h3, h4]
    rw [if_pos h5]
  · intro s lid bt oid bid cost
    unfold buildStructure applyToolResult
    rcases hL : s.map.locations.findIdx? (fun l => l.id == lid) with _ | li <;>
      rcases hL2 : s.map.locations.find? (fun l => l.id == lid) with _ | loc <;>
        simp only [hL, hL2]
    · intro _; exact ⟨by simp, by simp⟩
    · intro _; exact ⟨by simp, by simp⟩
    · intro _; exact ⟨by simp, by simp⟩
    · rcases hF : s.factions.findIdx? (fun f => some f.id == loc.faction_id) with _ | fi <;>
        rcases hF2 : s.factions.find? (fun f => some f.id == loc.faction_id) with _ | faction <;>
          simp only [hF, hF2]
      · intro _; exact ⟨by simp, by simp⟩
      · intro _; exact ⟨by simp, by simp⟩
      · intro _; exact ⟨by simp, by simp⟩
      · by_cases hR : (faction.resources.gold < cost.gold ∨
            faction.resources.grain < cost.grain ∨ faction.resources.iron < cost.iron)
        · rw [if_pos hR]
          intro _; exact ⟨by simp, by simp⟩
        · rw [if_neg hR]
          intro h
          exact absurd h (by simp)

/-- C1 witness: the insufficient-resources branch of
buildStructure_failure_is_noop applied at the concrete poor faction. -/
theorem buildStructure_failure_is_noop_witness :
    buildStructure poorState "loc1" "market" "npc1" bigCost "b1" =
      { success := false, message := "Insufficient resources. Needed: " ++ costJson bigCost,
        updates := none } ∧
    applyToolResult poorState (buildStructure poorState "loc1" "market" "npc1" bigCost "b1") =
      poorState := by
  have h1 := buildStructure_failure_is_noop.1 poorState "loc1" "market" "npc1" "b1" bigCost
    0 0 exampleLocation exampleFaction (by decide) (by decide) (by decide) (by decide)
    (Or.inl (by norm_num [exampleFaction, bigCost]))
  have h2 := (buildStructure_failure_is_noop.2.1 poorState "loc1" "market" "npc1" "b1" bigCost
    (by rw [h1])).2
  exact ⟨h1, h2⟩

/-- C2 (amended): one completed call of the turn orchestrator advances
epoch and day by exactly one and appends exactly one world diff; the
event log never shrinks, and grows by at least one entry whenever the
ambient world-event oracle produces an event. -/
theorem handleAdvanceTime_turn (bundle : WorldBundle) (toolDb : ToolDB) (o : Oracle) :
    ((handleAdvanceTime bundle toolDb o).1.world_state.time.epoch =
        bundle.world_state.time.epoch + 1 ∧
      (handleAdvanceTime bundle toolDb o).1.world_state.time.day =
        bundle.world_state.time.day + 1 ∧
      (handleAdvanceTime bundle toolDb o).1.world_diffs.length =
        bundle.world_diffs.length + 1 ∧
      bundle.world_state.event_log.length ≤
        (handleAdvanceTime bundle toolDb o).1.world_state.event_log.length) ∧
    ((∀ s, (o.worldEventAgent s).isSome) →
      bundle.world_state.event_log.length + 1 ≤
        (handleAdvanceTime bundle toolDb o).1.world_state.event_log.length) := by
  refine ⟨⟨?_, ?_, ?_, ?_⟩, fun hwe => ?_⟩
  · show (turnAccOf bundle toolDb o).ws.time.epoch + 1 = bundle.world_state.time.epoch + 1
    rw [turnAccOf_time]
  · show (turnAccOf bundle toolDb o).ws.time.day + 1 = bundle.world_state.time.day + 1
    rw [turnAccOf_time]
  · show (bundle.world_diffs ++ [generateWorldDiff bundle.world_state _ _]).length =
      bundle.world_diffs.length + 1
    simp
  · show bundle.world_state.event_log.length ≤
      (turnAccOf bundle toolDb o).ws.event_log.length
    exact turnAccOf_event_log_le bundle toolDb o
  · show bundle.world_state.event_log.length + 1 ≤
      (turnAccOf bundle toolDb o).ws.event_log.length
    exact turnAccOf_event_log_succ bundle toolDb o hwe

/-- C2 witness: the turn theorem applied to the empty day-1 world with
an oracle that always produces a world event. -/
theorem handleAdvanceTime_turn_witness :
    (handleAdvanceTime quietBundle emptyToolDb eventfulOracle).1.world_state.time.epoch =
        quietBundle.world_state.time.epoch + 1 ∧
      quietBundle.world_state.event_log.length + 1 ≤
        (handleAdvanceTime quietBundle emptyToolDb eventfulOracle).1.world_state.event_log.length := by
  have h := handleAdvanceTime_turn quietBundle emptyToolDb eventfulOracle
  exact ⟨h.1.1, h.2 (fun s => rfl)⟩

/-- C2 counterexample: with no managers, no ambient world event and no
tool evolution, one completed call advances epoch 1 to 2, day 1 to 2
and appends exactly one diff, yet appends nothing to the event log,
refuting the claim that every turn appends at least one event. -/
theorem advanceTime_quiet_epoch_no_event :
    (handleAdvanceTime quietBundle emptyToolDb trivialOracle).1.world_state.event_log.length = 0 ∧
    quietBundle.world_state.event_log.length = 0 ∧
    (handleAdvanceTime quietBundle emptyToolDb trivialOracle).1.world_state.time.epoch = 2 ∧
    (handleAdvanceTime quietBundle emptyToolDb trivialOracle).1.world_state.time.day = 2 ∧
    (handleAdvanceTime quietBundle emptyToolDb trivialOracle).1.world_diffs.length =
      quietBundle.world_diffs.length + 1 := by
  have hepoch : (handleAdvanceTime quietBundle emptyToolDb trivialOracle).1.world_state.time.epoch
      = (1 : ℚ) + 1 := rfl
  have hday : (handleAdvanceTime quietBundle emptyToolDb trivialOracle).1.world_state.time.day
      = (1 : ℚ) + 1 := rfl
  refine ⟨rfl, rfl, ?_, ?_, rfl⟩
  · rw [hepoch]; norm_num
  · rw [hday]; norm_num

/-- C4: whenever the external arbiter call fails, resolveCombatConflict
returns a result whose updates object is empty, so merging it changes
nothing; the fallback never propagates the failure. -/
theorem resolveCombat_arbiter_failure_is_noop (s : WorldState) (aId dId lId err : String) :
    (resolveCombatConflict s aId dId lId (Except.error err)).updates = emptyUpdates ∧
      applyUpdates s (resolveCombatConflict s aId dId lId (Except.error err)).updates = s := by
  have hupd : (resolveCombatConflict s aId dId lId (Except.error err)).updates = emptyUpdates := by
    unfold resolveCombatConflict
    dsimp only
    split <;> rfl
  exact ⟨hupd, by rw [hupd]; rfl⟩

/-- C9: memory retrieval scores each memory as its strength plus one
half per query token occurring in the lowercased text, sorts by
nonincreasing score with ties kept in original order (a stable sort),
and returns the first limit entries; being a pure function of the
memory list and query, it is deterministic. -/
theorem retrieveMemories_sorted_stable (npc : NPC) (query : String) (limit : ℕ) :
    retrieveMemories npc query limit =
      ((sortScoredDesc (scoredMemories npc query)).take limit).map (fun p => p.1) ∧
    (∀ tokens (m : MemoryItem), memScore tokens m =
      m.strength +
        ((tokens.filter fun t => strIncludes (strToLower m.text) t).length : ℚ) * (1 / 2)) ∧
    (sortScoredDesc (scoredMemories npc query)).Pairwise (fun a b => b.2 ≤ a.2) ∧
    (sortScoredDesc (scoredMemories npc query)).Perm (scoredMemories npc query) ∧
    (∀ q : ℚ, (sortScoredDesc (scoredMemories npc query)).filter (fun p => p.2 == q) =
      (scoredMemories npc query).filter (fun p => p.2 == q)) ∧
    (retrieveMemories npc query limit).length = min limit npc.memory.length := by
  refine ⟨rfl, ?_, sortScoredDesc_sorted _, sortScoredDesc_perm _,
    fun q => sortScoredDesc_filter _ q, ?_⟩
  · intro tokens m
    exact foldl_half_point tokens _ m.strength
  · have hlen : (sortScoredDesc (scoredMemories npc query)).length =
        npc.memory.length := by
      rw [(sortScoredDesc_perm (scoredMemories npc query)).length_eq]
      simp [scoredMemories]
    simp [retrieveMemories, hlen]

/-- C5: when attacker, defender and location exist and the arbiter
reply is usable, the losses applied to each side equal the minimum of
the reported casualties and the current troop count; reported
casualties at or above the troop count leave exactly zero troops, and
a nonnegative troop count never goes negative. -/
theorem combat_casualties_clamped (s : WorldState) (aId dId lId : String) (r : ArbiterOutcome)
    (ai di li : ℕ) (fa fd : Faction) (loc : Location)
    (hA : s.factions.findIdx? (fun f => f.id == aId) = some ai)
    (hD : s.factions.findIdx? (fun f => f.id == dId) = some di)
    (hL : s.map.locations.findIdx? (fun l => l.id == lId) = some li)
    (hfa : s.factions.get? ai = some fa)
    (hfd : s.factions.get? di = some fd)
    (hloc : s.map.locations.get? li = some loc)
    (hne : ai ≠ di) :
    (resolveCombatConflict s aId dId lId (Except.ok r)).updates.factions =
      some ((s.factions.set ai
          { fa with military := { fa.military with
            troops := fa.military.troops -
              min fa.military.troops (orZero r.attacker_casualties) } }).set di
        { fd with military := { fd.military with
          troops := fd.military.troops -
            min fd.military.troops (orZero r.defender_casualties) } }) ∧
    (fa.military.troops ≤ orZero r.attacker_casualties →
      fa.military.troops - min fa.military.troops (orZero r.attacker_casualties) = 0) ∧
    (0 ≤ fa.military.troops →
      0 ≤ fa.military.troops - min fa.military.troops (orZero r.attacker_casualties)) := by
  have hfind : s.factions.find? (fun f => f.id == aId) = some fa := by
    rw [find?_eq_findIdx?_bind, hA]
    simpa using hfa
  have hfindD : s.factions.find? (fun f => f.id == dId) = some fd := by
    rw [find?_eq_findIdx?_bind, hD]
    simpa using hfd
  have hfindL : s.map.locations.find? (fun l => l.id == lId) = some loc := by
    rw [find?_eq_findIdx?_bind, hL]
    simpa using hloc
  have hget : ∀ X : Faction, (s.factions.set ai X).get? di = some fd := fun X =>
    (List.get?_set_ne X s.factions hne).trans hfd
  refine ⟨?_, ?_, ?_⟩
  · unfold resolveCombatConflict
    dsimp only
    simp only [hfind, hfindD, hfindL, hA, hD, hL, hfa, hfd, hloc, hget]
  · intro h
    rw [min_eq_left h, sub_self]
  · intro h
    have := min_le_left fa.military.troops (orZero r.attacker_casualties)
    linarith

/-- C5 witness: the clamp theorem applied to a 30-troop attacker hit
with 999 reported casualties. -/
theorem combat_casualties_clamped_witness :
    (resolveCombatConflict warState "fa" "fd" "locb" (Except.ok bigCasualties)).updates.factions =
      some ((warState.factions.set 0
          { attackerFaction with military := { attackerFaction.military with
            troops := attackerFaction.military.troops -
              min attackerFaction.military.troops
                (orZero bigCasualties.attacker_casualties) } }).set 1
        { defenderFaction with military := { defenderFaction.military with
          troops := defenderFaction.military.troops -
            min defenderFaction.military.troops
              (orZero bigCasualties.defender_casualties) } }) ∧
    attackerFaction.military.troops -
      min attackerFaction.military.troops (orZero bigCasualties.attacker_casualties) = 0 := by
  have h := combat_casualties_clamped warState "fa" "fd" "locb" bigCasualties 0 1 0
    attackerFaction defenderFaction battlefield (by decide) (by decide) (by decide)
    (by decide) (by decide) (by decide) (by decide)
  refine ⟨h.1, h.2.1 ?_⟩
  norm_num [attackerFaction, bigCasualties, orZero]

/-- C3 counterexample: a successful build at a location with
prosperity 98 yields prosperity 103, above the claimed bound of 100;
the 5-point prosperity bonus of buildStructure is not clamped. -/
theorem buildStructure_prosperity_can_exceed_100 :
    (buildStructure prosperousState "loc9" "market" "npc9" smallCost "b9").success = true ∧
    ((buildStructure prosperousState "loc9" "market" "npc9" smallCost "b9").updates.bind
        WorldUpdates.map).map (fun mp => mp.locations.map Location.prosperity) =
      some [103] ∧
    ¬ ((103 : ℚ) ≤ 100) := by
  refine ⟨?_, ?_, by norm_num⟩ <;>
    · unfold buildStructure
      norm_num [prosperousState, worldAtEpoch, nearMaxLocation, richFaction, smallCost,
        List.findIdx?]

set_option maxHeartbeats 1000000 in
/-- C3 (amended): applyInfluence keeps unrest, defense and prosperity
of every location within 0 to 100 and population nonnegative; conflict
resolution leaves every location either untouched or with unrest in
0 to 100 and nonnegative defense; buildStructure leaves unrest,
defense and population of the built location unchanged but raises its
prosperity by exactly 5 with no upper clamp, so prosperity may exceed
100. -/
theorem clamp_invariants_amended :
    (∀ (s : WorldState) (inputs : InfluenceInputs) (u : WorldUpdates) (mp : GameMap),
      (applyInfluence s inputs).updates = some u → u.map = some mp →
      (∀ loc ∈ s.map.locations, locInBounds loc) →
      ∀ loc1 ∈ mp.locations, locInBounds loc1) ∧
    (∀ (s : WorldState) (lid bt oid bid : String) (cost : Resources) (u : WorldUpdates)
        (mp : GameMap),
      (buildStructure s lid bt oid cost bid).updates = some u → u.map = some mp →
      ∃ li loc, s.map.locations.findIdx? (fun l => l.id == lid) = some li ∧
        s.map.locations.find? (fun l => l.id == lid) = some loc ∧
        mp.locations = s.map.locations.set li
          { loc with
            buildings := loc.buildings ++ [builtBuilding bid bt oid]
            prosperity := loc.prosperity + 5 }) ∧
    (∀ (s : WorldState) (aId dId lId : String) (arb : Except String ArbiterOutcome)
        (mp : GameMap),
      (resolveCombatConflict s aId dId lId arb).updates.map = some mp →
      ∀ loc1 ∈ mp.locations, loc1 ∈ s.map.locations ∨
        (0 ≤ loc1.unrest ∧ loc1.unrest ≤ 100 ∧ 0 ≤ loc1.defense)) := by
  refine ⟨?_, ?_, ?_⟩
  · intro s inputs u mp hu hmap hbounds loc1 hmem
    unfold applyInfluence at hu
    dsimp only at hu
    split at hu
    · exact absurd hu (by simp)
    · split at hu
      · split at hu
        · cases hu
          exact absurd hmap (by simp)
        · exact absurd hu (by simp)
      · split at hu
        · split at hu
          · next li l0 hfi hfo =>
            cases hu
            dsimp only at hmap
            cases hmap
            dsimp only at hmem
            rcases List.mem_or_eq_of_mem_set hmem with h | rfl
            · exact hbounds loc1 h
            · have hb := hbounds l0 (List.mem_of_find?_eq_some hfo)
              unfold locInBounds at hb ⊢
              obtain ⟨b1, b2, b3, b4, b5, b6, b7⟩ := hb
              split <;> split <;> split <;> split <;>
                refine ⟨?_, ?_, ?_, ?_, ?_, ?_, ?_⟩ <;>
                  first
                    | assumption
                    | exact le_max_left 0 _
                    | exact max_le (by norm_num) (min_le_left _ _)
          · exact absurd hu (by simp)
        · split at hu
          · split at hu
            · cases hu
              exact absurd hmap (by simp)
            · exact absurd hu (by simp)
          · exact absurd hu (by simp)
  · intro s lid bt oid bid cost u mp hu hmap
    unfold buildStructure at hu
    split at hu
    · next li loc hfi hfo =>
      split at hu
      · next fi faction hff hffo =>
        split at hu
        · exact absurd hu (by simp)
        · cases hu
          dsimp only at hmap
          cases hmap
          exact ⟨li, loc, hfi, hfo, rfl⟩
      · exact absurd hu (by simp)
    · exact absurd hu (by simp)
  · intro s aId dId lId arb mp hmp loc1 hmem
    unfold resolveCombatConflict at hmp
    dsimp only at hmp
    split at hmp
    · split at hmp
      · exact absurd hmp (by simp [skirmishFallback, emptyUpdates])
      · split at hmp
        · split at hmp
          · dsimp only at hmp
            cases hmp
            rcases List.mem_or_eq_of_mem_set hmem with h | rfl
            · exact Or.inl h
            · refine Or.inr ?_
              split
              · exact ⟨by norm_num, by norm_num, le_max_left 0 _⟩
              · refine ⟨le_min (by norm_num) (le_max_left 0 _), min_le_left _ _,
                  le_max_left 0 _⟩
          · exact absurd hmp (by simp [skirmishFallback, emptyUpdates])
        · exact absurd hmp (by simp [skirmishFallback, emptyUpdates])
    · exact absurd hmp (by simp [emptyUpdates])

/-- C3 witness: the applyInfluence clause applied at the citadel with
a plus 50 prosperity request, whose result is clamped at 100. -/
theorem clamp_invariants_amended_witness : locInBounds locationAfter9 := by
  have hdelta : clamp (50 : ℚ) (-50) 50 = 50 := by
    norm_num [clamp, min_def, max_def]
  have hcl : clamp ((98 : ℚ) + 50) 0 100 = 100 := by
    norm_num [clamp, min_def, max_def]
  have happ : (applyInfluence prosperousState influenceInputs9).updates = some updatesAfter9 := by
    simp +decide [applyInfluence, influenceInputs9, prosperousState, worldAtEpoch,
      nearMaxLocation, hdelta, hcl, updatesAfter9, mapAfter9, locationAfter9, List.findIdx?]
  have hbounds : ∀ loc ∈ prosperousState.map.locations, locInBounds loc := by
    intro l hl
    simp only [prosperousState, worldAtEpoch, List.mem_singleton] at hl
    subst hl
    norm_num [locInBounds, nearMaxLocation]
  exact clamp_invariants_amended.1 prosperousState influenceInputs9 updatesAfter9 mapAfter9
    happ rfl hbounds locationAfter9 (by simp [mapAfter9])

/-- C8 witness: the addTool theorem applied at the concrete archive:
an invalid tool is rejected, a case-insensitive duplicate is rejected,
a fresh valid tool is appended, and distinctness is preserved. -/
theorem addTool_uniqueness_witness :
    addTool emptyToolDb invalidTool = emptyToolDb ∧
    addTool ritualDb ritualToolLower = ritualDb ∧
    (addTool emptyToolDb ritualTool).tools = emptyToolDb.tools ++ [normalizeTool ritualTool] ∧
    distinctToolNames (addTool ritualDb ritualToolLower) := by
  refine ⟨addTool_uniqueness.1 emptyToolDb invalidTool (by decide),
    addTool_uniqueness.2.1 ritualDb ritualToolLower (by decide),
    (addTool_uniqueness.2.2.1 emptyToolDb ritualTool (by decide) (by decide)).1,
    addTool_uniqueness.2.2.2.1 ritualDb ritualToolLower ?_⟩
  simp [distinctToolNames, ritualDb]

/-- C6 counterexample: one decay with multiplier 0.9999 sends the
memory strength 0.9996 to 1.000 because of the round-to-three-decimals
step, so decay can increase a strength, refuting the claim that
repeated decay never increases any strength. -/
theorem decay_strength_can_increase :
    (updateMemoryStrengths [decayNpc] (9999 / 10000)).map
        (fun n => n.memory.map (fun m => m.strength)) = [[1]] ∧
      decayNpc.memory.map (fun m => m.strength) = [2499 / 2500] ∧
      ¬ ((1 : ℚ) ≤ 2499 / 2500) := by
  have hr : round3 ((24987501 : ℚ) / 25000000) = 1 := by
    norm_num [round3, Int.floor_eq_iff]
  refine ⟨?_, rfl, by norm_num⟩
  norm_num [updateMemoryStrengths, decayNpc, floodMemory, hr]

/-- C6 (amended): decay multiplies each strength by the multiplier and
rounds the product to three decimal places; exactly the memories whose
resulting strength is at or below 0.1 survive pruning is decided on
the rounded value; every surviving memory descends from an input
memory with the same id (a removed memory never resurfaces) and its
strength lies on the thousandth grid; for strengths already on that
grid a multiplier in (0, 1] never increases the strength. -/
theorem updateMemoryStrengths_amended :
    (∀ (npcs : List NPC) (d : ℚ) (npc1 : NPC), npc1 ∈ updateMemoryStrengths npcs d →
      ∃ npc0 ∈ npcs, npc1.id = npc0.id ∧
        ∀ m1 ∈ npc1.memory, (1 : ℚ) / 10 < m1.strength ∧
          (∃ k : ℤ, m1.strength = (k : ℚ) / 1000) ∧
          ∃ m0 ∈ npc0.memory, m1.id = m0.id ∧ m1.strength = round3 (m0.strength * d)) ∧
    (∀ (s d : ℚ), (∃ k : ℤ, s = (k : ℚ) / 1000) → 0 < d → d ≤ 1 → 0 ≤ s →
      round3 (s * d) ≤ s) := by
  constructor
  · intro npcs d npc1 h
    unfold updateMemoryStrengths at h
    rw [List.mem_map] at h
    obtain ⟨npc0, h0, rfl⟩ := h
    refine ⟨npc0, h0, rfl, ?_⟩
    intro m1 hm
    simp only [List.mem_filter, List.mem_map] at hm
    obtain ⟨⟨m0, hm0, rfl⟩, hstr⟩ := hm
    exact ⟨of_decide_eq_true hstr, ⟨⌊m0.strength * d * 1000 + 1 / 2⌋, rfl⟩,
      m0, hm0, rfl, rfl⟩
  · rintro s d ⟨k, rfl⟩ hd0 hd1 hs
    unfold round3
    have hmul : (k : ℚ) / 1000 * d ≤ (k : ℚ) / 1000 := mul_le_of_le_one_right hs hd1
    have h2 : (k : ℚ) / 1000 * d * 1000 + 1 / 2 ≤ (k : ℚ) + 1 / 2 := by
      have := mul_le_mul_of_nonneg_right hmul (by norm_num : (0 : ℚ) ≤ 1000)
      have hk : (k : ℚ) / 1000 * 1000 = (k : ℚ) := by ring
      linarith [this, hk.ge]
    have h3 : ⌊(k : ℚ) / 1000 * d * 1000 + 1 / 2⌋ ≤ ⌊(k : ℚ) + 1 / 2⌋ :=
      Int.floor_le_floor h2
    have h4 : ⌊(k : ℚ) + 1 / 2⌋ = k := by
      rw [Int.floor_int_add]
      norm_num
    rw [h4] at h3
    have h5 : ((⌊(k : ℚ) / 1000 * d * 1000 + 1 / 2⌋ : ℤ) : ℚ) ≤ (k : ℚ) :=
      Int.cast_le.mpr h3
    exact (div_le_div_iff_of_pos_right (by norm_num : (0 : ℚ) < 1000)).mpr h5

/-- C6 witness: the grid monotonicity branch applied at strength 0.9
with multiplier 0.9, and the decay-shape branch applied at the decayed
elder NPC. -/
theorem updateMemoryStrengths_amended_witness :
    round3 ((900 : ℚ) / 1000 * (9 / 10)) ≤ (900 : ℚ) / 1000 ∧
      ∃ npc0 ∈ [decayNpc], decayedNpc.id = npc0.id ∧
        ∀ m1 ∈ decayedNpc.memory, (1 : ℚ) / 10 < m1.strength ∧
          (∃ k : ℤ, m1.strength = (k : ℚ) / 1000) ∧
          ∃ m0 ∈ npc0.memory, m1.id = m0.id ∧
            m1.strength = round3 (m0.strength * (9 / 10)) := by
  have hr : round3 ((22491 : ℚ) / 25000) = 9 / 10 := by
    norm_num [round3, Int.floor_eq_iff]
  have hmem : decayedNpc ∈ updateMemoryStrengths [decayNpc] (9 / 10) := by
    have : updateMemoryStrengths [decayNpc] (9 / 10) = [decayedNpc] := by
      norm_num [updateMemoryStrengths, decayNpc, decayedNpc, floodMemory, hr]
    rw [this]
    exact List.mem_singleton.mpr rfl
  exact ⟨updateMemoryStrengths_amended.2 (900 / 1000) (9 / 10) ⟨900, by norm_num⟩
      (by norm_num) (by norm_num) (by norm_num),
    updateMemoryStrengths_amended.1 [decayNpc] (9 / 10) decayedNpc hmem⟩

end AutoWorld
